import Mathlib

/-! Shallow embedding of the monetary and document-building core of
`tally_server.py`, a Flask service that converts tax-inclusive retail
sale entries into TallyPrime import XML.

Python `Decimal` values are modelled as exact rationals (`ℚ`): the
inputs are decimal literals, the multiplications and divisions
performed here stay well inside the default 28-significant-digit
context for the magnitudes of interest, and every value stored back
into the pipeline is first quantized to 2 fractional digits, so the
round-trips through `float`/`str` that the source performs on such
2-decimal values are identities and are modelled as such.
`Decimal.quantize(Decimal('0.01'), rounding=ROUND_HALF_UP)` is
`quantize2`; the Python builtin `round` (round-half-to-even), applied
by the source to the grand total, is `pyRound`; Python `int()`
truncation is `pyInt`; the f-string formats `:.2f` and `:.0f` are
`fmt2` and `fmt0`.  XML trees built with `xml.etree.ElementTree` are
modelled by the inductive type `Xml`.  The randomly generated voucher
number and the reformatted date are passed to the builder as plain
strings, exactly as their already-computed values flow into it. -/

/-- Cent count of a rational after Python
`Decimal.quantize(Decimal('0.01'), rounding=ROUND_HALF_UP)`:
round half away from zero at the second fractional digit. -/
def centsOf (x : ℚ) : ℤ :=
  if 0 ≤ x then ⌊x * 100 + 1 / 2⌋ else -⌊-(x * 100) + 1 / 2⌋

/-- Rounding to 2 fractional digits with halves away from zero, as
Python `Decimal.quantize(Decimal('0.01'), rounding=ROUND_HALF_UP)`. -/
def quantize2 (x : ℚ) : ℚ := (centsOf x : ℚ) / 100

/-- Python builtin `round(x)` to an integer: round half to even
(banker's rounding), used by the source on `float(total)`
(`rounded_total = round(float(total))`, line 164). -/
def pyRound (x : ℚ) : ℤ :=
  if x - ⌊x⌋ < 1 / 2 then ⌊x⌋
  else if 1 / 2 < x - ⌊x⌋ then ⌊x⌋ + 1
  else if ⌊x⌋ % 2 = 0 then ⌊x⌋ else ⌊x⌋ + 1

/-- Python `int(x)` on a number: truncation toward zero. -/
def pyInt (x : ℚ) : ℤ := if 0 ≤ x then ⌊x⌋ else ⌈x⌉

/-- Two-digit zero-padded decimal string for `n < 100`. -/
def pad2 (n : ℕ) : String := if n < 10 then "0" ++ toString n else toString n

/-- Render a nonnegative cent count as a plain 2-decimal string. -/
def fmtCents (m : ℕ) : String := toString (m / 100) ++ "." ++ pad2 (m % 100)

/-- The Python format `f'{x:.2f}'` on a monetary value.  On the
2-decimal quantities the source formats this is the exact decimal
rendering, sign included. -/
def fmt2 (x : ℚ) : String :=
  let k := pyRound (x * 100)
  if k < 0 then "-" ++ fmtCents k.natAbs else fmtCents k.natAbs

/-- The Python format `f'{x:.0f}'`: round half to even, no fraction. -/
def fmt0 (x : ℚ) : String := toString (pyRound x)

/-- Result record of `calculate_amounts_precise` (lines 78-109). -/
structure CalcResult where
  base_amount : ℚ
  gst_amount : ℚ
  base_rate : ℚ
  total_amount : ℚ
  rate_incl_gst : ℚ

/-- The function `calculate_amounts_precise(qty, rate_incl_gst, gst_rate)`
(lines 78-109): derive the GST-exclusive base amount from the
GST-inclusive total.  `total_amount` is `qty * rate_incl_gst`,
unquantized; `base_amount` is the quantized quotient by
`1 + gst_rate/100`; `gst_amount` is the quantized residual;
`base_rate` is the quantized per-unit base. -/
def calculate_amounts_precise (qty rate_incl_gst gst_rate : ℚ) : CalcResult :=
  let total_amount := qty * rate_incl_gst
  let divisor := 1 + gst_rate / 100
  let base_amount := quantize2 (total_amount / divisor)
  let gst_amount := quantize2 (total_amount - base_amount)
  let base_rate := quantize2 (base_amount / qty)
  ⟨base_amount, gst_amount, base_rate, total_amount, rate_incl_gst⟩

/-- One line item of the inbound request: `{name, imei?, quantity,
rate, gstRate}`.  A missing `imei` is the empty string, as in the
source's `item.get('imei', '')`. -/
structure Item where
  name : String
  imei : String
  quantity : ℚ
  rate : ℚ
  gstRate : ℚ

instance : Inhabited Item := ⟨⟨"", "", 0, 0, 0⟩⟩

/-- Transaction-level totals computed by `create_retail_sale_xml`
(lines 128-172). -/
structure Totals where
  subtotal : ℚ
  cgst_total : ℚ
  sgst_total : ℚ
  total : ℚ
  rounded_total : ℤ
  round_off : ℚ

/-- The aggregation loop and totals of `create_retail_sale_xml`
(lines 128-172): per line, `calculate_amounts_precise` is invoked and
`base_amount` is accumulated into `subtotal` while half of
`gst_amount` is accumulated into each of `cgst_total` and
`sgst_total`; the three accumulators are then quantized, the grand
total is their sum, the rounded grand total is Python
`round(float(total))`, and `round_off` is the quantized difference
`rounded_total - total`. -/
def computeTotals (items : List Item) : Totals :=
  let calcs := items.map (fun it => calculate_amounts_precise it.quantity it.rate it.gstRate)
  let subtotal := quantize2 (calcs.foldl (fun a c => a + c.base_amount) 0)
  let cgst_total := quantize2 (calcs.foldl (fun a c => a + c.gst_amount / 2) 0)
  let sgst_total := quantize2 (calcs.foldl (fun a c => a + c.gst_amount / 2) 0)
  let total := subtotal + cgst_total + sgst_total
  let rounded_total := pyRound total
  let round_off := quantize2 ((rounded_total : ℚ) - total)
  ⟨subtotal, cgst_total, sgst_total, total, rounded_total, round_off⟩

/-- The request validation performed by the `/create-voucher` endpoint
(`create_voucher`, lines 363-377).  Python falsiness of a missing or
empty string field is modelled by the empty string; a missing or empty
item list by `[]`.  Returns the error message of the first failing
check, or `none` when validation passes. -/
def validate_voucher_request (companyName partyName customerName : String)
    (items : List Item) : Option String :=
  if companyName = "" then some "Company name is required"
  else if partyName = "" then some "Party name is required"
  else if customerName = "" then some "Customer name is required"
  else if items.isEmpty then some "At least one item is required"
  else none

/-- The rounding to the nearest whole unit that the specification
asserts for the grand total, in the spec's own words: round half UP at
the unit boundary (away from zero), never to even.  Comparator for the
refinement claim about the source's `round(float(total))`. -/
def specRoundHalfUpToUnit (x : ℚ) : ℤ :=
  if 0 ≤ x then ⌊x + 1 / 2⌋ else -⌊-x + 1 / 2⌋

/-- An `xml.etree.ElementTree` element: tag, attributes, text content
and ordered children. -/
inductive Xml where
  | node (tag : String) (attrs : List (String × String)) (text : String)
      (children : List Xml)

/-- Tag of an element. -/
def Xml.tag : Xml → String
  | Xml.node t _ _ _ => t

/-- Text content of an element. -/
def Xml.textOf : Xml → String
  | Xml.node _ _ s _ => s

/-- Children of an element. -/
def Xml.childrenOf : Xml → List Xml
  | Xml.node _ _ _ cs => cs

/-- A leaf element with text only, as built by
`ET.SubElement(parent, tag).text = value`. -/
def leaf (tag text : String) : Xml := Xml.node tag [] text []

/-- Whether some element of the list carries the given tag. -/
def hasTagIn (t : String) (l : List Xml) : Bool :=
  l.any (fun x => x.tag == t)

/-- Text of the first child with the given tag, if any. -/
def findTextOf (t : String) (l : List Xml) : Option String :=
  (l.find? (fun x => x.tag == t)).map Xml.textOf

/-- The conditional address blocks (lines 201-212): an `ADDRESS.LIST`
whenever address or phone is non-empty, holding each non-empty one,
then a `BASICBUYERADDRESS.LIST` whenever address is non-empty. -/
def addressNodes (address phone : String) : List Xml :=
  (if address ≠ "" ∨ phone ≠ "" then
    [Xml.node "ADDRESS.LIST" [("TYPE", "String")] ""
      ((if address ≠ "" then [leaf "ADDRESS" address] else []) ++
       (if phone ≠ "" then [leaf "ADDRESS" phone] else []))]
   else []) ++
  (if address ≠ "" then
    [Xml.node "BASICBUYERADDRESS.LIST" [("TYPE", "String")] ""
      [leaf "BASICBUYERADDRESS" address]]
   else [])

/-- The `OLDAUDITENTRYIDS.LIST` block (lines 214-216). -/
def oldAuditNode : Xml :=
  Xml.node "OLDAUDITENTRYIDS.LIST" [("TYPE", "Number")] ""
    [leaf "OLDAUDITENTRYIDS" "-1"]

/-- The always-present descriptive fields (lines 218-236). -/
def headerFields (customer party vno tdate : String) : List Xml :=
  [leaf "DATE" tdate,
   leaf "VCHSTATUSDATE" tdate,
   leaf "GSTREGISTRATIONTYPE" "Unregistered/Consumer",
   leaf "STATENAME" "Maharashtra",
   leaf "COUNTRYOFRESIDENCE" "India",
   leaf "PLACEOFSUPPLY" "Maharashtra",
   leaf "VOUCHERTYPENAME" "Retail Sale",
   leaf "PARTYNAME" customer,
   leaf "PARTYLEDGERNAME" party,
   leaf "VOUCHERNUMBER" vno,
   leaf "BASICBUYERNAME" party,
   leaf "PARTYMAILINGNAME" customer,
   leaf "CONSIGNEEMAILINGNAME" party,
   leaf "CONSIGNEESTATENAME" "Maharashtra",
   leaf "CONSIGNEECOUNTRYNAME" "India",
   leaf "BASICBASEPARTYNAME" party,
   leaf "PERSISTEDVIEW" "Invoice Voucher View",
   leaf "VCHENTRYMODE" "Item Invoice",
   leaf "EFFECTIVEDATE" tdate]

/-- The ~18 schema-mandated boolean flags (lines 238-247), in the
source dict's insertion order. -/
def boolFlagNodes : List Xml :=
  [leaf "DIFFACTUALQTY" "No",
   leaf "ISMSTFROMSYNC" "No",
   leaf "ISDELETED" "No",
   leaf "ISSECURITYONWHENENTERED" "No",
   leaf "ASORIGINAL" "No",
   leaf "AUDITED" "No",
   leaf "FORJOBCOSTING" "No",
   leaf "ISOPTIONAL" "No",
   leaf "USEFOREXCISE" "No",
   leaf "ISFORJOBWORKIN" "No",
   leaf "ALLOWCONSUMPTION" "No",
   leaf "USEFORINTEREST" "No",
   leaf "USEFORGAINLOSS" "No",
   leaf "USEFORGODOWNTRANSFER" "No",
   leaf "USEFORCOMPOUND" "No",
   leaf "ISREVERSECHARGEAPPLICABLE" "No",
   leaf "ISINVOICE" "Yes",
   leaf "ISOVERSEASTOURISTTRANS" "No"]

/-- The `BATCHALLOCATIONS.LIST` sub-block of an inventory entry
(lines 272-280). -/
def batchNode (vno : String) (qty base_amount rate_incl : ℚ) : Xml :=
  Xml.node "BATCHALLOCATIONS.LIST" [] ""
    [leaf "GODOWNNAME" "Main Location",
     leaf "BATCHNAME" "Primary Batch",
     leaf "DESTINATIONGODOWNNAME" "Main Location",
     leaf "TRACKINGNUMBER" vno,
     leaf "AMOUNT" (fmt2 base_amount),
     leaf "ACTUALQTY" (" " ++ fmt0 qty ++ " Pcs"),
     leaf "BILLEDQTY" (" " ++ fmt0 qty ++ " Pcs"),
     leaf "INCLVATRATE" (fmt2 rate_incl ++ "/Pcs")]

/-- The `ACCOUNTINGALLOCATIONS.LIST` sub-block (lines 282-285). -/
def accAllocNode (base_amount : ℚ) : Xml :=
  Xml.node "ACCOUNTINGALLOCATIONS.LIST" [] ""
    [leaf "LEDGERNAME" "SALES GST",
     leaf "ISDEEMEDPOSITIVE" "No",
     leaf "AMOUNT" (fmt2 base_amount)]

/-- One `RATEDETAILS.LIST` descriptor (lines 293-297). -/
def rateDetailNode (dutyHead : String) (rate_val : ℚ) : Xml :=
  Xml.node "RATEDETAILS.LIST" [] ""
    [leaf "GSTRATEDUTYHEAD" dutyHead,
     leaf "GSTRATEVALUATIONTYPE" "Based on Value",
     leaf "GSTRATE" (" " ++ fmt0 rate_val)]

/-- One `ALLINVENTORYENTRIES.LIST` block for a line item
(lines 250-297): optional IMEI descriptor, the formatted rate, amount
and quantity fields, the batch and accounting allocation sub-blocks,
and the three tax-head descriptors (two at half the line's rate, one
at the full rate). -/
def invEntry (vno : String) (it : Item) : Xml :=
  let c := calculate_amounts_precise it.quantity it.rate it.gstRate
  Xml.node "ALLINVENTORYENTRIES.LIST" [] ""
    ((if it.imei ≠ "" then
        [Xml.node "BASICUSERDESCRIPTION.LIST" [("TYPE", "String")] ""
          [leaf "BASICUSERDESCRIPTION" it.imei]]
      else []) ++
     [leaf "STOCKITEMNAME" it.name,
      leaf "ISDEEMEDPOSITIVE" "No",
      leaf "RATE" (fmt2 c.base_rate ++ "/Pcs"),
      leaf "AMOUNT" (fmt2 c.base_amount),
      leaf "ACTUALQTY" (" " ++ fmt0 it.quantity ++ " Pcs"),
      leaf "BILLEDQTY" (" " ++ fmt0 it.quantity ++ " Pcs"),
      leaf "INCLVATRATE" (fmt2 it.rate ++ "/Pcs"),
      batchNode vno it.quantity c.base_amount it.rate,
      accAllocNode c.base_amount,
      rateDetailNode "CGST" (it.gstRate / 2),
      rateDetailNode "SGST/UTGST" (it.gstRate / 2),
      rateDetailNode "IGST" it.gstRate])

/-- The party ledger entry (lines 300-304); its amount is the negated
rounded grand total. -/
def partyLedgerNode (party : String) (rounded : ℤ) : Xml :=
  Xml.node "LEDGERENTRIES.LIST" [] ""
    [leaf "LEDGERNAME" party,
     leaf "ISDEEMEDPOSITIVE" "Yes",
     leaf "ISPARTYLEDGER" "Yes",
     leaf "AMOUNT" ("-" ++ fmt2 (rounded : ℚ))]

/-- The CGST ledger entry (lines 306-313); its label embeds
`int(items_calculated[0]['gst_rate'] / 2)`. -/
def cgstLedgerNode (firstGst cg : ℚ) : Xml :=
  Xml.node "LEDGERENTRIES.LIST" [] ""
    [leaf "LEDGERNAME" ("CGST " ++ toString (pyInt (firstGst / 2)) ++ "%"),
     leaf "METHODTYPE" "GST",
     leaf "ISDEEMEDPOSITIVE" "No",
     leaf "AMOUNT" (fmt2 cg),
     leaf "VATEXPAMOUNT" (fmt2 cg)]

/-- The SGST ledger entry (lines 315-322). -/
def sgstLedgerNode (firstGst sg : ℚ) : Xml :=
  Xml.node "LEDGERENTRIES.LIST" [] ""
    [leaf "LEDGERNAME" ("SGST " ++ toString (pyInt (firstGst / 2)) ++ "%"),
     leaf "METHODTYPE" "GST",
     leaf "ISDEEMEDPOSITIVE" "No",
     leaf "AMOUNT" (fmt2 sg),
     leaf "VATEXPAMOUNT" (fmt2 sg)]

/-- The rounding-adjustment ledger entry (lines 325-332). -/
def roundLedgerNode (r : ℚ) : Xml :=
  Xml.node "LEDGERENTRIES.LIST" [] ""
    [leaf "ROUNDTYPE" "Normal Rounding",
     leaf "LEDGERNAME" "Round Up/Down",
     leaf "METHODTYPE" "As Total Amount Rounding",
     leaf "ISDEEMEDPOSITIVE" "No",
     leaf "ROUNDLIMIT" " 1",
     leaf "AMOUNT" (fmt2 r),
     leaf "VATEXPAMOUNT" (fmt2 r)]

/-- The ledger-entry blocks (lines 299-332): party entry always; CGST
and SGST entries when the respective totals are positive (both labels
read the FIRST line item's rate); the rounding entry when the
adjustment's magnitude exceeds 0.001. -/
def ledgerNodes (party : String) (firstGst : ℚ) (T : Totals) : List Xml :=
  [partyLedgerNode party T.rounded_total] ++
  (if 0 < T.cgst_total then [cgstLedgerNode firstGst T.cgst_total] else []) ++
  (if 0 < T.sgst_total then [sgstLedgerNode firstGst T.sgst_total] else []) ++
  (if 1 / 1000 < |T.round_off| then [roundLedgerNode T.round_off] else [])

/-- The voucher payload of the inbound request. -/
structure VoucherData where
  companyName : String
  partyName : String
  customerName : String
  address : String
  phone : String
  items : List Item

/-- The ordered children of the `VOUCHER` element built by
`create_retail_sale_xml` (lines 201-332). -/
def voucherChildren (d : VoucherData) (vno tdate : String) : List Xml :=
  addressNodes d.address d.phone ++
  [oldAuditNode] ++
  headerFields d.customerName d.partyName vno tdate ++
  boolFlagNodes ++
  d.items.map (invEntry vno) ++
  ledgerNodes d.partyName d.items.headI.gstRate (computeTotals d.items)

/-- The full envelope assembled by `create_retail_sale_xml`
(lines 174-335). -/
def create_retail_sale_xml (d : VoucherData) (vno tdate : String) : Xml :=
  Xml.node "ENVELOPE" [] ""
    [Xml.node "HEADER" [] "" [leaf "TALLYREQUEST" "Import Data"],
     Xml.node "BODY" [] ""
       [Xml.node "IMPORTDATA" [] ""
         [Xml.node "REQUESTDESC" [] ""
           [leaf "REPORTNAME" "Vouchers",
            Xml.node "STATICVARIABLES" [] ""
              (if d.companyName ≠ "" then [leaf "SVCURRENTCOMPANY" d.companyName] else [])],
          Xml.node "REQUESTDATA" [] ""
            [Xml.node "TALLYMESSAGE" [("xmlns:UDF", "TallyUDF")] ""
              [Xml.node "VOUCHER"
                 [("REMOTEID", ""), ("VCHKEY", ""), ("VCHTYPE", "Retail Sale"),
                  ("ACTION", "Create"), ("OBJVIEW", "Invoice Voucher View")] ""
                 (voucherChildren d vno tdate)]]]]]

/-- Whether an element is the rounding-adjustment ledger block: a
`LEDGERENTRIES.LIST` containing a `ROUNDTYPE` child (only the block of
lines 325-332 has one). -/
def isRoundBlock (x : Xml) : Bool :=
  (x.tag == "LEDGERENTRIES.LIST") && hasTagIn "ROUNDTYPE" x.childrenOf

/-- Whether the rounding-adjustment ledger block occurs in a list. -/
def hasRoundBlock (l : List Xml) : Bool := l.any isRoundBlock

/-- Whether the list holds a ledger-entry block whose `LEDGERNAME`
text is the given name. -/
def hasLedgerName (nm : String) (l : List Xml) : Bool :=
  l.any (fun x =>
    (x.tag == "LEDGERENTRIES.LIST") &&
    x.childrenOf.any (fun c => (c.tag == "LEDGERNAME") && (c.textOf == nm)))

/-! ## Arithmetic facts about the rounding primitives -/

/-- Quantizing a whole-cent value changes nothing. -/
theorem quantize2_int_div (k : ℤ) : quantize2 ((k : ℚ) / 100) = (k : ℚ) / 100 := by
  have h100 : ((k : ℚ) / 100) * 100 = (k : ℚ) :=
    div_mul_cancel₀ _ (by norm_num)
  rcases le_or_lt 0 k with hk | hk
  · have hx : (0 : ℚ) ≤ (k : ℚ) / 100 := by positivity
    rw [quantize2, centsOf, if_pos hx, h100, Int.floor_int_add,
      show ⌊(1 / 2 : ℚ)⌋ = 0 by norm_num]
    norm_num
  · have hx : ¬(0 : ℚ) ≤ (k : ℚ) / 100 := by
      simp only [not_le]
      have : (k : ℚ) < 0 := by exact_mod_cast hk
      linarith
    rw [quantize2, centsOf, if_neg hx, h100]
    rw [show -(k : ℚ) = ((-k : ℤ) : ℚ) by push_cast; ring, Int.floor_int_add,
      show ⌊(1 / 2 : ℚ)⌋ = 0 by norm_num]
    push_cast
    ring

/-- Subtracting a whole-cent value commutes with `quantize2` on
nonnegative arguments. -/
theorem quantize2_sub_cent (x : ℚ) (k : ℤ) (hx : 0 ≤ x) (h : (k : ℚ) / 100 ≤ x) :
    quantize2 (x - (k : ℚ) / 100) = quantize2 x - (k : ℚ) / 100 := by
  have h0 : (0 : ℚ) ≤ x - (k : ℚ) / 100 := by linarith
  rw [quantize2, quantize2, centsOf, centsOf, if_pos hx, if_pos h0,
    show (x - (k : ℚ) / 100) * 100 + 1 / 2 = (x * 100 + 1 / 2) - (k : ℚ) by ring,
    show (x * 100 + 1 / 2) - (k : ℚ) = x * 100 + 1 / 2 - (k : ℤ) by push_cast; ring,
    Int.floor_sub_int]
  push_cast
  ring

/-- Rounding with `pyRound` lands within half a unit of the argument. -/
theorem pyRound_dist (x : ℚ) : |((pyRound x : ℚ)) - x| ≤ 1 / 2 := by
  have h0 : (⌊x⌋ : ℚ) ≤ x := Int.floor_le x
  have h1 : x < (⌊x⌋ : ℚ) + 1 := Int.lt_floor_add_one x
  unfold pyRound
  split_ifs with ha hb hc <;> rw [abs_le] <;> constructor <;> push_cast <;> linarith

/-- At an exact half, `pyRound` returns the even neighbour. -/
theorem pyRound_tie (x : ℚ) (h : x - (⌊x⌋ : ℚ) = 1 / 2) : Even (pyRound x) := by
  unfold pyRound
  rw [if_neg (by rw [h]; norm_num), if_neg (by rw [h]; norm_num)]
  split_ifs with hc
  · exact Int.even_iff.2 hc
  · rw [Int.even_add_one]
    exact fun he => hc (Int.even_iff.1 he)

/-- Away from an exact half, `pyRound` is strictly nearest. -/
theorem pyRound_strict (x : ℚ) (h : x - (⌊x⌋ : ℚ) ≠ 1 / 2) :
    |((pyRound x : ℚ)) - x| < 1 / 2 := by
  have h0 : (⌊x⌋ : ℚ) ≤ x := Int.floor_le x
  have h1 : x < (⌊x⌋ : ℚ) + 1 := Int.lt_floor_add_one x
  unfold pyRound
  split_ifs with ha hb hc
  · rw [abs_lt]; constructor <;> push_cast <;> linarith
  · rw [abs_lt]; constructor <;> push_cast <;> linarith
  all_goals exact absurd (le_antisymm (not_lt.1 hb) (not_lt.1 ha)) h

/-! ## Structural facts about the aggregation loop -/

/-- The `subtotal` accumulator of the aggregation loop is the sum of
the per-line base amounts. -/
theorem foldl_base (l : List CalcResult) (a : ℚ) :
    l.foldl (fun s c => s + c.base_amount) a = a + (l.map (fun c => c.base_amount)).sum := by
  induction l generalizing a with
  | nil => simp
  | cons x xs ih => simp [List.foldl_cons, ih, add_assoc]

/-- The CGST/SGST accumulator of the aggregation loop is half the sum
of the per-line GST amounts. -/
theorem foldl_gsthalf (l : List CalcResult) (a : ℚ) :
    l.foldl (fun s c => s + c.gst_amount / 2) a =
      a + (l.map (fun c => c.gst_amount)).sum / 2 := by
  induction l generalizing a with
  | nil => simp
  | cons x xs ih =>
    rw [List.foldl_cons, ih, List.map_cons, List.sum_cons]
    ring

/-- The grand total is the sum of the three quantized components. -/
theorem computeTotals_total (items : List Item) :
    (computeTotals items).total =
      (computeTotals items).subtotal + (computeTotals items).cgst_total +
        (computeTotals items).sgst_total := rfl

/-- The rounded grand total is Python `round` of the grand total. -/
theorem computeTotals_rounded (items : List Item) :
    (computeTotals items).rounded_total = pyRound ((computeTotals items).total) := rfl

/-- The rounding adjustment is the quantized difference between the
rounded and the unrounded grand total. -/
theorem computeTotals_round_off (items : List Item) :
    (computeTotals items).round_off =
      quantize2 (((computeTotals items).rounded_total : ℚ) - (computeTotals items).total) := rfl

/-- The two tax accumulators run the same computation. -/
theorem computeTotals_halves (items : List Item) :
    (computeTotals items).cgst_total = (computeTotals items).sgst_total := rfl

/-- The three quantized components are whole-cent values. -/
theorem totals_cents (items : List Item) :
    ∃ a b c : ℤ,
      (computeTotals items).subtotal = (a : ℚ) / 100 ∧
      (computeTotals items).cgst_total = (b : ℚ) / 100 ∧
      (computeTotals items).sgst_total = (c : ℚ) / 100 :=
  ⟨centsOf _, centsOf _, centsOf _, rfl, rfl, rfl⟩

/-! ## Claims about the monetary decomposition and aggregation -/

/-- Claim C2, counterexample: at quantity 1/2, inclusive rate 100.01
and tax rate 0 the quantized base amount (50.01) overshoots the raw
total 50.005, the residual tax rounds to -0.01, and the sum 50.00
differs from round-half-up(q*r) = 50.01. -/
theorem C2_counterexample :
    (calculate_amounts_precise (1 / 2) (10001 / 100) 0).base_amount +
        (calculate_amounts_precise (1 / 2) (10001 / 100) 0).gst_amount = 50 ∧
    quantize2 ((1 / 2 : ℚ) * (10001 / 100)) = 5001 / 100 ∧
    (50 : ℚ) ≠ 5001 / 100 := by
  refine ⟨?_, ?_, by norm_num⟩ <;>
    norm_num [calculate_amounts_precise, quantize2, centsOf]

/-- Claim C2 (amended): for positive quantity and rate and nonnegative
tax rate, whenever the rounded base amount does not exceed the raw
total `q * r` (in particular whenever `q * r` is a whole-cent amount),
`base_amount + tax_amount` equals `q * r` rounded half-up to 2
fractional digits. -/
theorem C2_amended (q r t : ℚ) (hq : 0 < q) (hr : 0 < r) (ht : 0 ≤ t)
    (hres : (calculate_amounts_precise q r t).base_amount ≤ q * r) :
    (calculate_amounts_precise q r t).base_amount +
      (calculate_amounts_precise q r t).gst_amount = quantize2 (q * r) := by
  have htot : (0 : ℚ) ≤ q * r := le_of_lt (mul_pos hq hr)
  have hbase : (calculate_amounts_precise q r t).base_amount =
      ((centsOf (q * r / (1 + t / 100)) : ℚ)) / 100 := rfl
  have hgst : (calculate_amounts_precise q r t).gst_amount =
      quantize2 (q * r - (calculate_amounts_precise q r t).base_amount) := rfl
  rw [hbase] at hres
  rw [hgst, hbase, quantize2_sub_cent (q * r) _ htot hres]
  ring

/-- Claim C2, witness at quantity 1, rate 1000, tax 18. -/
theorem C2_amended_witness :
    (calculate_amounts_precise 1 1000 18).base_amount ≤ (1 : ℚ) * 1000 ∧
    (calculate_amounts_precise 1 1000 18).base_amount +
      (calculate_amounts_precise 1 1000 18).gst_amount = quantize2 ((1 : ℚ) * 1000) :=
  ⟨by norm_num [calculate_amounts_precise, quantize2, centsOf],
   C2_amended 1 1000 18 (by norm_num) (by norm_num) (by norm_num)
     (by norm_num [calculate_amounts_precise, quantize2, centsOf])⟩

/-- Claim C3, counterexample: a single line of quantity 1, inclusive
rate 100.50, tax 0 gives grand total 100.50; the source's
`round(float(total))` returns 100 (half to even), while the claimed
round-half-up to the nearest unit would give 101. -/
theorem C3_counterexample :
    (computeTotals [⟨"X", "", 1, 201 / 2, 0⟩]).total = 201 / 2 ∧
    (computeTotals [⟨"X", "", 1, 201 / 2, 0⟩]).rounded_total = 100 ∧
    specRoundHalfUpToUnit ((computeTotals [⟨"X", "", 1, 201 / 2, 0⟩]).total) = 101 ∧
    (computeTotals [⟨"X", "", 1, 201 / 2, 0⟩]).rounded_total ≠
      specRoundHalfUpToUnit ((computeTotals [⟨"X", "", 1, 201 / 2, 0⟩]).total) := by
  have htot : (computeTotals [⟨"X", "", 1, 201 / 2, 0⟩]).total = 201 / 2 := by
    norm_num [computeTotals, calculate_amounts_precise, quantize2, centsOf]
  have hrd : (computeTotals [⟨"X", "", 1, 201 / 2, 0⟩]).rounded_total = 100 := by
    rw [computeTotals_rounded, htot]
    norm_num [pyRound]
  have hspec : specRoundHalfUpToUnit ((201 : ℚ) / 2) = 101 := by
    norm_num [specRoundHalfUpToUnit]
  exact ⟨htot, hrd, by rw [htot]; exact hspec, by rw [htot, hrd, hspec]; norm_num⟩

/-- Claim C3 (amended): for every non-empty line-item list the rounded
grand total is within half a unit of the grand total
(subtotal + half_a + half_b), is strictly nearest whenever the grand
total is not an exact half, and at an exact half it is the EVEN
neighbour (Python banker's rounding), not the half-up value the claim
asserts. -/
theorem C3_amended (items : List Item) (h : items ≠ []) :
    (computeTotals items).total =
      (computeTotals items).subtotal + (computeTotals items).cgst_total +
        (computeTotals items).sgst_total ∧
    |(((computeTotals items).rounded_total : ℚ)) - (computeTotals items).total| ≤ 1 / 2 ∧
    ((computeTotals items).total - (⌊(computeTotals items).total⌋ : ℚ) = 1 / 2 →
      Even (computeTotals items).rounded_total) ∧
    ((computeTotals items).total - (⌊(computeTotals items).total⌋ : ℚ) ≠ 1 / 2 →
      |(((computeTotals items).rounded_total : ℚ)) - (computeTotals items).total| < 1 / 2) := by
  refine ⟨rfl, ?_, ?_, ?_⟩ <;> rw [computeTotals_rounded]
  · exact pyRound_dist _
  · exact fun hh => pyRound_tie _ hh
  · exact fun hh => pyRound_strict _ hh

/-- Claim C3, witness at a single line of quantity 1, rate 1000, tax 18. -/
theorem C3_amended_witness :
    ([⟨"A", "", 1, 1000, 18⟩] : List Item) ≠ [] ∧
    ((computeTotals [⟨"A", "", 1, 1000, 18⟩]).total =
      (computeTotals [⟨"A", "", 1, 1000, 18⟩]).subtotal +
        (computeTotals [⟨"A", "", 1, 1000, 18⟩]).cgst_total +
        (computeTotals [⟨"A", "", 1, 1000, 18⟩]).sgst_total ∧
    |(((computeTotals [⟨"A", "", 1, 1000, 18⟩]).rounded_total : ℚ)) -
        (computeTotals [⟨"A", "", 1, 1000, 18⟩]).total| ≤ 1 / 2 ∧
    ((computeTotals [⟨"A", "", 1, 1000, 18⟩]).total -
        (⌊(computeTotals [⟨"A", "", 1, 1000, 18⟩]).total⌋ : ℚ) = 1 / 2 →
      Even (computeTotals [⟨"A", "", 1, 1000, 18⟩]).rounded_total) ∧
    ((computeTotals [⟨"A", "", 1, 1000, 18⟩]).total -
        (⌊(computeTotals [⟨"A", "", 1, 1000, 18⟩]).total⌋ : ℚ) ≠ 1 / 2 →
      |(((computeTotals [⟨"A", "", 1, 1000, 18⟩]).rounded_total : ℚ)) -
        (computeTotals [⟨"A", "", 1, 1000, 18⟩]).total| < 1 / 2)) :=
  ⟨by simp, C3_amended _ (by simp)⟩

/-- Claim C4: for every non-empty line-item list,
`subtotal + half_a + half_b + rounding_adjustment` equals the rounded
grand total exactly. -/
theorem C4_invariant (items : List Item) (h : items ≠ []) :
    (computeTotals items).subtotal + (computeTotals items).cgst_total +
      (computeTotals items).sgst_total + (computeTotals items).round_off =
      ((computeTotals items).rounded_total : ℚ) := by
  obtain ⟨a, b, c, ha, hb, hc⟩ := totals_cents items
  have ht := computeTotals_total items
  have hro := computeTotals_round_off items
  have key : (((computeTotals items).rounded_total : ℚ)) - (computeTotals items).total =
      ((100 * (computeTotals items).rounded_total - a - b - c : ℤ) : ℚ) / 100 := by
    rw [ht, ha, hb, hc]; push_cast; ring
  rw [hro, key, quantize2_int_div, ha, hb, hc]
  push_cast
  ring

/-- Claim C4, witness at a single line of quantity 1, rate 1000, tax 18. -/
theorem C4_invariant_witness :
    ([⟨"A", "", 1, 1000, 18⟩] : List Item) ≠ [] ∧
    (computeTotals [⟨"A", "", 1, 1000, 18⟩]).subtotal +
      (computeTotals [⟨"A", "", 1, 1000, 18⟩]).cgst_total +
      (computeTotals [⟨"A", "", 1, 1000, 18⟩]).sgst_total +
      (computeTotals [⟨"A", "", 1, 1000, 18⟩]).round_off =
      ((computeTotals [⟨"A", "", 1, 1000, 18⟩]).rounded_total : ℚ) :=
  ⟨by simp, C4_invariant _ (by simp)⟩

/-- Claim C5: for every non-empty line-item list the two tax halves
are equal, each being the combined per-line GST sum divided by two and
then rounded half-up to 2 fractional digits. -/
theorem C5_tax_split (items : List Item) (h : items ≠ []) :
    (computeTotals items).cgst_total = (computeTotals items).sgst_total ∧
    (computeTotals items).cgst_total =
      quantize2 (((items.map (fun it =>
        (calculate_amounts_precise it.quantity it.rate it.gstRate).gst_amount)).sum) / 2) := by
  refine ⟨rfl, ?_⟩
  have h1 : (computeTotals items).cgst_total =
      quantize2 ((items.map (fun it =>
        calculate_amounts_precise it.quantity it.rate it.gstRate)).foldl
          (fun a c => a + c.gst_amount / 2) 0) := rfl
  rw [h1, foldl_gsthalf, zero_add, List.map_map]
  rfl

/-- Claim C5, witness: a single line whose GST amount is 17.77; each
half is 8.89. -/
theorem C5_tax_split_witness :
    ([⟨"B", "", 1, 11649 / 100, 18⟩] : List Item) ≠ [] ∧
    ((computeTotals [⟨"B", "", 1, 11649 / 100, 18⟩]).cgst_total =
      (computeTotals [⟨"B", "", 1, 11649 / 100, 18⟩]).sgst_total ∧
    (computeTotals [⟨"B", "", 1, 11649 / 100, 18⟩]).cgst_total =
      quantize2 ((([⟨"B", "", 1, 11649 / 100, 18⟩] : List Item).map (fun it =>
        (calculate_amounts_precise it.quantity it.rate it.gstRate).gst_amount)).sum / 2)) :=
  ⟨by simp, C5_tax_split _ (by simp)⟩

/-- Claim C6, counterexample: at quantity 1/2 and rate 100.01 the
returned `total_amount` is the raw product 50.005, not the claimed
2-digit half-up rounding 50.01. -/
theorem C6_counterexample :
    (calculate_amounts_precise (1 / 2) (10001 / 100) 0).total_amount = 10001 / 200 ∧
    quantize2 ((1 / 2 : ℚ) * (10001 / 100)) = 5001 / 100 ∧
    (calculate_amounts_precise (1 / 2) (10001 / 100) 0).total_amount ≠
      quantize2 ((1 / 2 : ℚ) * (10001 / 100)) := by
  refine ⟨by norm_num [calculate_amounts_precise], ?_, ?_⟩ <;>
    norm_num [calculate_amounts_precise, quantize2, centsOf]

/-- Claim C6 (amended): for positive quantity and rate the
decomposition's `total_amount` is exactly `q * r` with NO rounding
applied; it agrees with the claimed rounded value exactly when `q * r`
is already a whole-cent amount. -/
theorem C6_amended (q r t : ℚ) (hq : 0 < q) (hr : 0 < r) :
    (calculate_amounts_precise q r t).total_amount = q * r ∧
    (∀ k : ℤ, q * r = (k : ℚ) / 100 →
      (calculate_amounts_precise q r t).total_amount = quantize2 (q * r)) := by
  refine ⟨rfl, fun k hk => ?_⟩
  rw [show (calculate_amounts_precise q r t).total_amount = q * r from rfl, hk,
    quantize2_int_div]

/-- Claim C6, witness at quantity 1, rate 1000, tax 18. -/
theorem C6_amended_witness :
    (calculate_amounts_precise 1 1000 18).total_amount = (1 : ℚ) * 1000 ∧
    (∀ k : ℤ, (1 : ℚ) * 1000 = (k : ℚ) / 100 →
      (calculate_amounts_precise 1 1000 18).total_amount = quantize2 ((1 : ℚ) * 1000)) :=
  C6_amended 1 1000 18 (by norm_num) (by norm_num)

/-- Claim C9, counterexample: a request with party name, customer name
and a non-empty item list but no company name is REJECTED by the
endpoint's validation (the source requires `companyName`, line 365),
contrary to the claim that it passes. -/
theorem C9_counterexample :
    validate_voucher_request "" "Party" "Customer" [⟨"X", "", 1, 10, 0⟩] =
      some "Company name is required" := rfl

/-- Claim C9 (amended): validation passes exactly when companyName,
partyName and customerName are all non-empty AND the item list is
non-empty; companyName is in fact required by the endpoint. -/
theorem C9_amended (c p cu : String) (items : List Item) :
    validate_voucher_request c p cu items = none ↔
      (c ≠ "" ∧ p ≠ "" ∧ cu ≠ "" ∧ items ≠ []) := by
  unfold validate_voucher_request
  split_ifs with h1 h2 h3 h4 <;>
    simp_all [List.isEmpty_iff]

/-! ## Structural facts about the document builder -/

/-- Evaluating `any` over a conditional singleton. -/
theorem any_if_singleton (c : Prop) [Decidable c] (a : Xml) (p : Xml → Bool) :
    (if c then [a] else []).any p = (if c then p a else false) := by
  split <;> simp

/-- Membership in a conditional singleton forces both the equality and
the condition. -/
theorem mem_if_both (c : Prop) [Decidable c] (a x : Xml)
    (h : x ∈ (if c then [a] else [])) : x = a ∧ c := by
  by_cases hc : c
  · rw [if_pos hc] at h
    exact ⟨List.mem_singleton.1 h, hc⟩
  · rw [if_neg hc] at h
    exact absurd h (List.not_mem_nil x)

/-- A mapped list has no element satisfying a predicate that fails on
every image. -/
theorem any_map_eq_false (l : List Item) (f : Item → Xml) (p : Xml → Bool)
    (h : ∀ it, p (f it) = false) : (l.map f).any p = false := by
  induction l with
  | nil => rfl
  | cons x xs ih => simp [List.map_cons, List.any_cons, h, ih]

/-- A list whose `any` is false has no member satisfying the predicate. -/
theorem no_sat_in (l : List Xml) (p : Xml → Bool) (hl : l.any p = false)
    {x : Xml} (hx : x ∈ l) (hp : p x = true) : False := by
  have h2 := List.any_eq_true.2 ⟨x, hx, hp⟩
  rw [hl] at h2
  exact Bool.false_ne_true h2

/-- Searching a tag distributes over append. -/
theorem hasTagIn_append (t : String) (l1 l2 : List Xml) :
    hasTagIn t (l1 ++ l2) = (hasTagIn t l1 || hasTagIn t l2) := List.any_append

/-- None of the address nodes is the rounding block. -/
theorem isRB_address (a p : String) : (addressNodes a p).any isRoundBlock = false := by
  unfold addressNodes
  split_ifs <;> rfl

/-- The audit block is not the rounding block. -/
theorem isRB_oldAudit : [oldAuditNode].any isRoundBlock = false := rfl

/-- No header field is the rounding block. -/
theorem isRB_header (c p v t : String) :
    (headerFields c p v t).any isRoundBlock = false := rfl

/-- No boolean flag is the rounding block. -/
theorem isRB_flags : boolFlagNodes.any isRoundBlock = false := rfl

/-- An inventory entry is never the rounding block. -/
theorem isRB_inv (vno : String) (it : Item) : isRoundBlock (invEntry vno it) = false := rfl

/-- The party ledger entry is not the rounding block. -/
theorem isRB_party (p : String) (r : ℤ) : isRoundBlock (partyLedgerNode p r) = false := rfl

/-- The CGST ledger entry is not the rounding block. -/
theorem isRB_cgstn (fg cg : ℚ) : isRoundBlock (cgstLedgerNode fg cg) = false := rfl

/-- The SGST ledger entry is not the rounding block. -/
theorem isRB_sgstn (fg sg : ℚ) : isRoundBlock (sgstLedgerNode fg sg) = false := rfl

/-- The rounding ledger entry IS the rounding block. -/
theorem isRB_roundn (r : ℚ) : isRoundBlock (roundLedgerNode r) = true := rfl

/-- The rounding block occurs among the ledger entries exactly when
the adjustment's magnitude exceeds 0.001. -/
theorem hasRoundBlock_ledger (p : String) (fg : ℚ) (T : Totals) :
    hasRoundBlock (ledgerNodes p fg T) = true ↔ 1 / 1000 < |T.round_off| := by
  unfold ledgerNodes hasRoundBlock
  simp only [List.any_append, List.any_cons, List.any_nil, any_if_singleton,
    isRB_party, isRB_cgstn, isRB_sgstn, isRB_roundn, Bool.or_false, Bool.false_or,
    ite_self]
  split_ifs with h3
  · exact iff_of_true rfl h3
  · exact iff_of_false (by simp) h3

/-- The rounding block occurs in the built voucher exactly when the
adjustment's magnitude exceeds 0.001. -/
theorem hasRoundBlock_voucher (d : VoucherData) (vno tdate : String) :
    hasRoundBlock (voucherChildren d vno tdate) = true ↔
      1 / 1000 < |(computeTotals d.items).round_off| := by
  unfold voucherChildren hasRoundBlock
  have hmap : (d.items.map (invEntry vno)).any isRoundBlock = false :=
    any_map_eq_false _ _ _ (isRB_inv vno)
  simp only [List.any_append, isRB_address, isRB_oldAudit, isRB_header, isRB_flags,
    hmap, Bool.or_false, Bool.false_or]
  exact hasRoundBlock_ledger _ _ _

/-- Any rounding block in the built voucher is the one appended at
lines 324-332, and its guard holds. -/
theorem roundBlock_unique (d : VoucherData) (vno tdate : String) :
    ∀ x ∈ voucherChildren d vno tdate, isRoundBlock x = true →
      x = roundLedgerNode (computeTotals d.items).round_off ∧
        1 / 1000 < |(computeTotals d.items).round_off| := by
  intro x hx hpx
  unfold voucherChildren at hx
  simp only [List.mem_append] at hx
  rcases hx with ((((hA | hB) | hC) | hD) | hE) | hF
  · exact (no_sat_in _ _ (isRB_address d.address d.phone) hA hpx).elim
  · exact (no_sat_in _ _ isRB_oldAudit hB hpx).elim
  · exact (no_sat_in _ _ (isRB_header d.customerName d.partyName vno tdate) hC hpx).elim
  · exact (no_sat_in _ _ isRB_flags hD hpx).elim
  · exact (no_sat_in _ _ (any_map_eq_false _ _ _ (isRB_inv vno)) hE hpx).elim
  · unfold ledgerNodes at hF
    simp only [List.mem_append] at hF
    rcases hF with ((h1 | h2) | h3) | h4
    · rw [List.mem_singleton] at h1
      subst h1
      rw [isRB_party] at hpx
      exact absurd hpx (by simp)
    · obtain ⟨rfl, _⟩ := mem_if_both _ _ _ h2
      rw [isRB_cgstn] at hpx
      exact absurd hpx (by simp)
    · obtain ⟨rfl, _⟩ := mem_if_both _ _ _ h3
      rw [isRB_sgstn] at hpx
      exact absurd hpx (by simp)
    · obtain ⟨rfl, hc⟩ := mem_if_both _ _ _ h4
      exact ⟨rfl, hc⟩

/-- The audit block does not carry the `ADDRESS.LIST` tag. -/
theorem tagA_oldAudit : hasTagIn "ADDRESS.LIST" [oldAuditNode] = false := rfl

/-- No header field carries the `ADDRESS.LIST` tag. -/
theorem tagA_header (c p v t : String) :
    hasTagIn "ADDRESS.LIST" (headerFields c p v t) = false := rfl

/-- No boolean flag carries the `ADDRESS.LIST` tag. -/
theorem tagA_flags : hasTagIn "ADDRESS.LIST" boolFlagNodes = false := rfl

/-- No ledger entry carries the `ADDRESS.LIST` tag. -/
theorem tagA_ledger (p : String) (fg : ℚ) (T : Totals) :
    hasTagIn "ADDRESS.LIST" (ledgerNodes p fg T) = false := by
  unfold ledgerNodes
  split_ifs <;> rfl

/-- The address segment carries an `ADDRESS.LIST` element exactly when
address or phone is non-empty. -/
theorem tagA_address (a p : String) :
    hasTagIn "ADDRESS.LIST" (addressNodes a p) = true ↔ (a ≠ "" ∨ p ≠ "") := by
  unfold addressNodes hasTagIn
  simp only [List.any_append, any_if_singleton]
  split_ifs with h1 h2 <;> simp_all [Xml.tag]

/-- The audit block does not carry the `BASICBUYERADDRESS.LIST` tag. -/
theorem tagB_oldAudit : hasTagIn "BASICBUYERADDRESS.LIST" [oldAuditNode] = false := rfl

/-- No header field carries the `BASICBUYERADDRESS.LIST` tag. -/
theorem tagB_header (c p v t : String) :
    hasTagIn "BASICBUYERADDRESS.LIST" (headerFields c p v t) = false := rfl

/-- No boolean flag carries the `BASICBUYERADDRESS.LIST` tag. -/
theorem tagB_flags : hasTagIn "BASICBUYERADDRESS.LIST" boolFlagNodes = false := rfl

/-- No ledger entry carries the `BASICBUYERADDRESS.LIST` tag. -/
theorem tagB_ledger (p : String) (fg : ℚ) (T : Totals) :
    hasTagIn "BASICBUYERADDRESS.LIST" (ledgerNodes p fg T) = false := by
  unfold ledgerNodes
  split_ifs <;> rfl

/-- The address segment carries a `BASICBUYERADDRESS.LIST` element
exactly when the address is non-empty. -/
theorem tagB_address (a p : String) :
    hasTagIn "BASICBUYERADDRESS.LIST" (addressNodes a p) = true ↔ a ≠ "" := by
  unfold addressNodes hasTagIn
  simp only [List.any_append, any_if_singleton]
  split_ifs with h1 h2 <;> simp_all [Xml.tag]

/-- The built voucher carries an `ADDRESS.LIST` block exactly when
address or phone is non-empty. -/
theorem hasTag_addr_voucher (d : VoucherData) (vno tdate : String) :
    hasTagIn "ADDRESS.LIST" (voucherChildren d vno tdate) = true ↔
      (d.address ≠ "" ∨ d.phone ≠ "") := by
  unfold voucherChildren
  have hmap : hasTagIn "ADDRESS.LIST" (d.items.map (invEntry vno)) = false :=
    any_map_eq_false _ _ _ (fun it => rfl)
  simp only [hasTagIn_append, tagA_oldAudit, tagA_header, tagA_flags, tagA_ledger,
    hmap, Bool.or_false]
  exact tagA_address _ _

/-- The built voucher carries a `BASICBUYERADDRESS.LIST` block exactly
when the address is non-empty. -/
theorem hasTag_buyer_voucher (d : VoucherData) (vno tdate : String) :
    hasTagIn "BASICBUYERADDRESS.LIST" (voucherChildren d vno tdate) = true ↔
      d.address ≠ "" := by
  unfold voucherChildren
  have hmap : hasTagIn "BASICBUYERADDRESS.LIST" (d.items.map (invEntry vno)) = false :=
    any_map_eq_false _ _ _ (fun it => rfl)
  simp only [hasTagIn_append, tagB_oldAudit, tagB_header, tagB_flags, tagB_ledger,
    hmap, Bool.or_false]
  exact tagB_address _ _

/-- An inventory entry carries the serial/IMEI descriptor sub-block
exactly when the line's IMEI tag is non-empty. -/
theorem hasTag_imei_inv (vno : String) (it : Item) :
    hasTagIn "BASICUSERDESCRIPTION.LIST" (Xml.childrenOf (invEntry vno it)) = true ↔
      it.imei ≠ "" := by
  unfold invEntry
  simp only [Xml.childrenOf, hasTagIn, List.any_append, any_if_singleton]
  split_ifs with h1 <;> simp_all [Xml.tag, leaf, batchNode, accAllocNode, rateDetailNode]

/-! ## Claims about the document builder -/

/-- Claim C7, counterexample: with an EMPTY address but a non-empty
phone the built voucher still contains an `ADDRESS.LIST` block
(carrying the phone), so the address block is NOT omitted exactly when
the address is empty. -/
theorem C7_counterexample :
    (VoucherData.mk "Co" "P" "C" "" "12345" [⟨"X", "", 1, 10, 0⟩]).address = "" ∧
    hasTagIn "ADDRESS.LIST"
      (voucherChildren ⟨"Co", "P", "C", "", "12345", [⟨"X", "", 1, 10, 0⟩]⟩
        "V" "20250101") = true := by
  refine ⟨rfl, ?_⟩
  rw [hasTag_addr_voucher]
  right
  decide

/-- Claim C7 (amended): the `ADDRESS.LIST` block is present exactly
when address OR phone is non-empty, the `BASICBUYERADDRESS.LIST` block
exactly when the address is non-empty, and the per-line serial/IMEI
descriptor exactly when that line's tag is non-empty. -/
theorem C7_amended (d : VoucherData) (vno tdate : String) :
    (hasTagIn "ADDRESS.LIST" (voucherChildren d vno tdate) = true ↔
      (d.address ≠ "" ∨ d.phone ≠ "")) ∧
    (hasTagIn "BASICBUYERADDRESS.LIST" (voucherChildren d vno tdate) = true ↔
      d.address ≠ "") ∧
    (∀ it : Item,
      hasTagIn "BASICUSERDESCRIPTION.LIST" (Xml.childrenOf (invEntry vno it)) = true ↔
        it.imei ≠ "") :=
  ⟨hasTag_addr_voucher d vno tdate, hasTag_buyer_voucher d vno tdate,
   fun it => hasTag_imei_inv vno it⟩

/-- Claim C7, witness at a concrete record. -/
theorem C7_amended_witness :
    (hasTagIn "ADDRESS.LIST"
      (voucherChildren ⟨"Co", "P", "C", "Addr", "Ph", [⟨"X", "IM", 1, 10, 0⟩]⟩
        "V" "20250101") = true ↔
      ((VoucherData.mk "Co" "P" "C" "Addr" "Ph" [⟨"X", "IM", 1, 10, 0⟩]).address ≠ "" ∨
        (VoucherData.mk "Co" "P" "C" "Addr" "Ph" [⟨"X", "IM", 1, 10, 0⟩]).phone ≠ "")) ∧
    (hasTagIn "BASICBUYERADDRESS.LIST"
      (voucherChildren ⟨"Co", "P", "C", "Addr", "Ph", [⟨"X", "IM", 1, 10, 0⟩]⟩
        "V" "20250101") = true ↔
      (VoucherData.mk "Co" "P" "C" "Addr" "Ph" [⟨"X", "IM", 1, 10, 0⟩]).address ≠ "") ∧
    (∀ it : Item,
      hasTagIn "BASICUSERDESCRIPTION.LIST" (Xml.childrenOf (invEntry "V" it)) = true ↔
        it.imei ≠ "") :=
  C7_amended ⟨"Co", "P", "C", "Addr", "Ph", [⟨"X", "IM", 1, 10, 0⟩]⟩ "V" "20250101"

/-- Claim C8: the rounding-adjustment ledger block is present in the
built voucher exactly when the adjustment's magnitude exceeds 0.001,
and any such block formats exactly the signed adjustment as its
amount value. -/
theorem C8_rounding_block (d : VoucherData) (vno tdate : String) :
    (hasRoundBlock (voucherChildren d vno tdate) = true ↔
      1 / 1000 < |(computeTotals d.items).round_off|) ∧
    (∀ x ∈ voucherChildren d vno tdate, isRoundBlock x = true →
      findTextOf "AMOUNT" x.childrenOf =
        some (fmt2 (computeTotals d.items).round_off)) := by
  refine ⟨hasRoundBlock_voucher d vno tdate, fun x hx hpx => ?_⟩
  obtain ⟨rfl, _⟩ := roundBlock_unique d vno tdate x hx hpx
  rfl

/-- Claim C8, witness: one line of quantity 1, rate 100, tax 18 gives
adjustment -0.01; the block is present and its amount string is
"-0.01" (sign preserved). -/
theorem C8_rounding_block_witness :
    1 / 1000 < |(computeTotals [⟨"X", "", 1, 100, 18⟩]).round_off| ∧
    hasRoundBlock
      (voucherChildren ⟨"Co", "P", "C", "", "", [⟨"X", "", 1, 100, 18⟩]⟩
        "V" "20250101") = true ∧
    fmt2 ((computeTotals [⟨"X", "", 1, 100, 18⟩]).round_off) = "-0.01" := by
  have hro : (computeTotals [⟨"X", "", 1, 100, 18⟩]).round_off = -(1 / 100) := by
    norm_num [computeTotals, calculate_amounts_precise, quantize2, centsOf, pyRound]
  have hth : 1 / 1000 < |(computeTotals [⟨"X", "", 1, 100, 18⟩]).round_off| := by
    rw [hro, abs_neg, abs_of_pos (show (0 : ℚ) < 1 / 100 by norm_num)]
    norm_num
  have hf : fmt2 (-(1 / 100) : ℚ) = "-0.01" := by
    norm_num [fmt2, pyRound, fmtCents, pad2]
    rfl
  exact ⟨hth,
    (C8_rounding_block ⟨"Co", "P", "C", "", "", [⟨"X", "", 1, 100, 18⟩]⟩
      "V" "20250101").1.2 hth,
    by rw [hro]; exact hf⟩

/-- Claim C10: whenever the tax halves are positive, the two
tax-split ledger labels both embed the FIRST line item's tax rate
halved and truncated toward zero to an integer, whatever the other
lines carry. -/
theorem C10_ledger_names (d : VoucherData) (vno tdate : String) (h1 : d.items ≠ [])
    (h2 : 0 < (computeTotals d.items).cgst_total) :
    hasLedgerName ("CGST " ++ toString (pyInt (d.items.headI.gstRate / 2)) ++ "%")
      (voucherChildren d vno tdate) = true ∧
    hasLedgerName ("SGST " ++ toString (pyInt (d.items.headI.gstRate / 2)) ++ "%")
      (voucherChildren d vno tdate) = true := by
  have h2s : 0 < (computeTotals d.items).sgst_total := by
    rw [← computeTotals_halves]; exact h2
  constructor
  · unfold hasLedgerName
    refine List.any_eq_true.2
      ⟨cgstLedgerNode (d.items.headI.gstRate) ((computeTotals d.items).cgst_total),
        ?_, ?_⟩
    · unfold voucherChildren ledgerNodes
      refine List.mem_append_right _ ?_
      refine List.mem_append_left _ (List.mem_append_left _ (List.mem_append_right _ ?_))
      rw [if_pos h2]
      exact List.mem_singleton_self _
    · simp [cgstLedgerNode, Xml.tag, Xml.childrenOf, Xml.textOf, leaf]
  · unfold hasLedgerName
    refine List.any_eq_true.2
      ⟨sgstLedgerNode (d.items.headI.gstRate) ((computeTotals d.items).sgst_total),
        ?_, ?_⟩
    · unfold voucherChildren ledgerNodes
      refine List.mem_append_right _ ?_
      refine List.mem_append_left _ (List.mem_append_right _ ?_)
      rw [if_pos h2s]
      exact List.mem_singleton_self _
    · simp [sgstLedgerNode, Xml.tag, Xml.childrenOf, Xml.textOf, leaf]

/-- Claim C10, witness: a single line at 5 percent yields labels
"CGST 2%" and "SGST 2%" (int(5/2) = 2, not 2.5 or 3). -/
theorem C10_ledger_names_witness :
    0 < (computeTotals [⟨"X", "", 1, 105, 5⟩]).cgst_total ∧
    hasLedgerName "CGST 2%"
      (voucherChildren ⟨"Co", "P", "C", "", "", [⟨"X", "", 1, 105, 5⟩]⟩
        "V1" "20250101") = true ∧
    hasLedgerName "SGST 2%"
      (voucherChildren ⟨"Co", "P", "C", "", "", [⟨"X", "", 1, 105, 5⟩]⟩
        "V1" "20250101") = true := by
  have hpos : 0 < (computeTotals [⟨"X", "", 1, 105, 5⟩]).cgst_total := by
    norm_num [computeTotals, calculate_amounts_precise, quantize2, centsOf]
  have h := C10_ledger_names ⟨"Co", "P", "C", "", "", [⟨"X", "", 1, 105, 5⟩]⟩
    "V1" "20250101" (by simp) hpos
  have e1 : ("CGST " ++ toString (pyInt
      ((VoucherData.mk "Co" "P" "C" "" "" [⟨"X", "", 1, 105, 5⟩]).items.headI.gstRate / 2))
      ++ "%") = "CGST 2%" := by
    norm_num [pyInt, List.headI]
    rfl
  have e2 : ("SGST " ++ toString (pyInt
      ((VoucherData.mk "Co" "P" "C" "" "" [⟨"X", "", 1, 105, 5⟩]).items.headI.gstRate / 2))
      ++ "%") = "SGST 2%" := by
    norm_num [pyInt, List.headI]
    rfl
  rw [e1, e2] at h
  exact ⟨hpos, h.1, h.2⟩

/-- Claim C1, counterexample: for one line of quantity 1, inclusive
rate 1000, tax 18 the grand total is 1000.00 (847.46 + 76.27 + 76.27),
not the claimed 999.99, the rounding adjustment is 0.00, not the
claimed 0.01, and NO rounding-adjustment ledger block is emitted. -/
theorem C1_counterexample :
    (computeTotals [⟨"Item1", "", 1, 1000, 18⟩]).total = 1000 ∧
    (1000 : ℚ) ≠ 99999 / 100 ∧
    (computeTotals [⟨"Item1", "", 1, 1000, 18⟩]).round_off = 0 ∧
    (0 : ℚ) ≠ 1 / 100 ∧
    hasRoundBlock
      (voucherChildren ⟨"Co", "Party", "Cust", "Addr", "999", [⟨"Item1", "", 1, 1000, 18⟩]⟩
        "RS-25/26-1234" "20251012") = false := by
  have htot : (computeTotals [⟨"Item1", "", 1, 1000, 18⟩]).total = 1000 := by
    norm_num [computeTotals, calculate_amounts_precise, quantize2, centsOf]
  have hro : (computeTotals [⟨"Item1", "", 1, 1000, 18⟩]).round_off = 0 := by
    norm_num [computeTotals, calculate_amounts_precise, quantize2, centsOf, pyRound]
  refine ⟨htot, by norm_num, hro, by norm_num, ?_⟩
  have h := hasRoundBlock_voucher
    ⟨"Co", "Party", "Cust", "Addr", "999", [⟨"Item1", "", 1, 1000, 18⟩]⟩
    "RS-25/26-1234" "20251012"
  have hP : ¬(1 / 1000 <
      |(computeTotals (VoucherData.mk "Co" "Party" "Cust" "Addr" "999"
        [⟨"Item1", "", 1, 1000, 18⟩]).items).round_off|) := by
    show ¬(1 / 1000 < |(computeTotals [⟨"Item1", "", 1, 1000, 18⟩]).round_off|)
    rw [hro]; norm_num
  rcases Bool.eq_false_or_eq_true (hasRoundBlock
      (voucherChildren ⟨"Co", "Party", "Cust", "Addr", "999", [⟨"Item1", "", 1, 1000, 18⟩]⟩
        "RS-25/26-1234" "20251012")) with hb | hb
  · exact absurd (h.1 hb) hP
  · exact hb

/-- Claim C1 (amended): the end-to-end scenario gives base 847.46,
tax 152.54, base rate 847.46, subtotal 847.46, halves 76.27 each, but
grand total 1000.00 exactly, rounded grand total 1000, rounding
adjustment 0.00, and the rounding-adjustment block is ABSENT from the
built document. -/
theorem C1_amended :
    (calculate_amounts_precise 1 1000 18).base_amount = 84746 / 100 ∧
    (calculate_amounts_precise 1 1000 18).gst_amount = 15254 / 100 ∧
    (calculate_amounts_precise 1 1000 18).base_rate = 84746 / 100 ∧
    (computeTotals [⟨"Item1", "", 1, 1000, 18⟩]).subtotal = 84746 / 100 ∧
    (computeTotals [⟨"Item1", "", 1, 1000, 18⟩]).cgst_total = 7627 / 100 ∧
    (computeTotals [⟨"Item1", "", 1, 1000, 18⟩]).sgst_total = 7627 / 100 ∧
    (computeTotals [⟨"Item1", "", 1, 1000, 18⟩]).total = 1000 ∧
    (computeTotals [⟨"Item1", "", 1, 1000, 18⟩]).rounded_total = 1000 ∧
    (computeTotals [⟨"Item1", "", 1, 1000, 18⟩]).round_off = 0 ∧
    hasRoundBlock
      (voucherChildren ⟨"Co", "Party", "Cust", "Addr", "999", [⟨"Item1", "", 1, 1000, 18⟩]⟩
        "RS-25/26-1234" "20251012") = false := by
  have hro : (computeTotals [⟨"Item1", "", 1, 1000, 18⟩]).round_off = 0 := by
    norm_num [computeTotals, calculate_amounts_precise, quantize2, centsOf, pyRound]
  refine ⟨?_, ?_, ?_, ?_, ?_, ?_, ?_, ?_, hro, ?_⟩
  · norm_num [calculate_amounts_precise, quantize2, centsOf]
  · norm_num [calculate_amounts_precise, quantize2, centsOf]
  · norm_num [calculate_amounts_precise, quantize2, centsOf]
  · norm_num [computeTotals, calculate_amounts_precise, quantize2, centsOf]
  · norm_num [computeTotals, calculate_amounts_precise, quantize2, centsOf]
  · norm_num [computeTotals, calculate_amounts_precise, quantize2, centsOf]
  · norm_num [computeTotals, calculate_amounts_precise, quantize2, centsOf]
  · norm_num [computeTotals, calculate_amounts_precise, quantize2, centsOf, pyRound]
  · have h := hasRoundBlock_voucher
      ⟨"Co", "Party", "Cust", "Addr", "999", [⟨"Item1", "", 1, 1000, 18⟩]⟩
      "RS-25/26-1234" "20251012"
    have hP : ¬(1 / 1000 <
        |(computeTotals (VoucherData.mk "Co" "Party" "Cust" "Addr" "999"
          [⟨"Item1", "", 1, 1000, 18⟩]).items).round_off|) := by
      show ¬(1 / 1000 < |(computeTotals [⟨"Item1", "", 1, 1000, 18⟩]).round_off|)
      rw [hro]; norm_num
    rcases Bool.eq_false_or_eq_true (hasRoundBlock
        (voucherChildren ⟨"Co", "Party", "Cust", "Addr", "999", [⟨"Item1", "", 1, 1000, 18⟩]⟩
          "RS-25/26-1234" "20251012")) with hb | hb
    · exact absurd (h.1 hb) hP
    · exact hb
